import Mathlib

/-!
Verification of the serialized-execution core of `readme_agent_components.py`.

The source implements a `PlaywrightWorker` that owns the browser resource and
runs every submitted operation on one dedicated thread: `run` (lines 31-38)
creates a private reply queue, enqueues a task, blocks until the worker loop
`_run` (lines 21-29) executes the operation and deposits `(True, result)` or
`(False, e)`, and then returns the value or re-raises the failure.  A
module-level `global_worker` (line 55) is lazily created by
`PlaywrightOpenBrowser.execute` (lines 76-97); all other components use it.

We embed the relevant code as executable Lean definitions: the owned resource
state is a `Nat`, a submitted operation is a function from the resource state
to an outcome (`Except String Nat`, embedding "returns a value or raises an
exception with a message") together with a possibly-updated resource state,
and the Python exception machinery is represented by tagged values.
-/

namespace ReadmeAgent

/-- Outcome of calling an operation: a returned value or a raised exception
(Python exceptions are embedded as their message strings). -/
abbrev Outcome := Except String Nat

/-- A submitted operation (`func` in the source): a computation over the
owned resource state that returns a value or raises, possibly mutating the
resource (closures in the source mutate the browser/page via side effects). -/
abbrev Op := Nat → Outcome × Nat

/-- A Python value deposited in a reply queue: either a result value or an
exception object. -/
abbrev PyVal := Sum Nat String

/-- A Python function reference as passed to `run`: possibly `None`. -/
abbrev PyFunc := Option Op

/-- The error raised by Python when invoking `None` as a function. -/
def typeErrorNone : String := "TypeError: NoneType object is not callable"

/-- Line 26: `result = func(*args, **kwargs)` — invoking the function
reference; invoking `None` raises a `TypeError`. -/
def callFunc : PyFunc → Nat → Outcome × Nat
  | none, res => (Except.error typeErrorNone, res)
  | some f, res => f res

/-- Lines 25-29: the `try`/`except` around the call deposits
`(True, result)` on success and `(False, e)` on failure into the task's
reply queue. -/
def depositReply : Outcome → Bool × PyVal
  | Except.ok v => (true, Sum.inl v)
  | Except.error e => (false, Sum.inr e)

/-- What `run` does for its caller after reading the reply: `return result`
or `raise result` (lines 35-38). -/
inductive RunOutcome where
  | returns (v : PyVal)
  | raises (v : PyVal)
deriving DecidableEq

/-- Lines 34-38: `success, result = result_queue.get()`; on `True` the value
is returned, on `False` the carried exception object is re-raised. -/
def readReply : Bool × PyVal → RunOutcome
  | (true, v) => RunOutcome.returns v
  | (false, v) => RunOutcome.raises v

/-- The caller-visible outcome of one `run` call: the worker-side processing
of the task (lines 24-29) composed with the caller-side reply read
(lines 34-38). -/
def runOutcome (f : PyFunc) (res : Nat) : RunOutcome :=
  readReply (depositReply (callFunc f res).1)

/-- Lines 32-33 of `run`: a fresh reply queue is made and the task is put on
`task_queue` unconditionally — the source has no validation branch before
the `put`. -/
def runSubmit (q : List PyFunc) (f : PyFunc) : List PyFunc := q ++ [f]

/-- Lines 23-29: the worker loop, processing the queued tasks in order.  Each
iteration calls the task's function with the current resource state, deposits
the tagged reply, and continues with the next task whether or not the call
failed (the `except` arm catches the failure locally). -/
def workerLoop : Nat → List PyFunc → List (Bool × PyVal) × Nat
  | res, [] => ([], res)
  | res, f :: rest =>
    let r := callFunc f res
    let tail := workerLoop r.2 rest
    (depositReply r.1 :: tail.1, tail.2)

/-! ### Singleton lifecycle (lines 55, 77-79)

`PlaywrightOpenBrowser.execute` runs `if global_worker is None:
global_worker = PlaywrightWorker()` with no lock.  We model the lazy
initialization of N calling contexts as an interleaving of two atomic steps
per context: `check` (the `is None` test, line 78) and `assign` (the
construction plus assignment, line 79).  `constructed` counts how many times
`PlaywrightWorker()` ran. -/

/-- One atomic step of a calling context during lazy initialization. -/
inductive InitStep where
  | check (c : Nat)
  | assign (c : Nat)

/-- State of the module-level singleton during initialization:
the `global_worker` variable (tagged by the constructing context's id),
how many `PlaywrightWorker()` constructions have run, and which contexts
have passed the `is None` check while the variable was still `None`. -/
structure InitState where
  globalWorker : Option Nat
  constructed : Nat
  sawNone : List Nat
deriving DecidableEq

/-- Effect of one initialization step (source lines 78-79). A `check` while
the variable is `None` commits that context to constructing; an `assign` by
a committed context runs the constructor and overwrites the variable. -/
def initStep (st : InitState) : InitStep → InitState
  | InitStep.check c =>
    if st.globalWorker = none then { st with sawNone := c :: st.sawNone } else st
  | InitStep.assign c =>
    if c ∈ st.sawNone then
      { globalWorker := some c, constructed := st.constructed + 1,
        sawNone := st.sawNone.erase c }
    else st

/-- Run an interleaving of initialization steps from the uninitialized state
(`global_worker = None`, line 55). -/
def runInit (l : List InitStep) : InitState :=
  l.foldl initStep { globalWorker := none, constructed := 0, sawNone := [] }

/-- A fully serialized schedule: each context performs its check and its
assign back-to-back, with no interleaving. -/
def serialSched : List Nat → List InitStep
  | [] => []
  | c :: cs => InitStep.check c :: InitStep.assign c :: serialSched cs

/-! ### First-call initialization failure (lines 13-22, 76-91)

The worker thread body `_run` starts the driver (`sync_playwright().start()`,
line 22) before entering the loop, with no `try` around it: a failure there
escapes `_run` and kills the daemon thread, so the loop never consumes
`task_queue` and every `result_queue.get()` blocks forever.  `global_worker`
is assigned (line 79) before the thread gets to line 22, i.e. before the
resource construction is attempted. -/

/-- Status of the worker's dedicated thread after the driver-start attempt. -/
inductive ThreadStatus where
  | loopRunning
  | dead
deriving DecidableEq

/-- Lines 21-22: the thread enters the loop only if the driver start
succeeds; an exception kills the thread. -/
def workerThreadStart : Except String Unit → ThreadStatus
  | Except.ok _ => ThreadStatus.loopRunning
  | Except.error _ => ThreadStatus.dead

/-- What a `run` call observes depending on the worker thread: a live loop
eventually serves the task; a dead loop never fills the reply queue, so the
caller blocks forever in `result_queue.get()` (line 34). -/
inductive CallResult where
  | finished (r : Outcome)
  | blockedForever

/-- Lines 31-38 against a worker whose thread has status `w`. -/
def runOnWorker : ThreadStatus → Outcome → CallResult
  | ThreadStatus.loopRunning, r => CallResult.finished r
  | ThreadStatus.dead, _ => CallResult.blockedForever

/-- One `PlaywrightOpenBrowser.execute` call (lines 76-91): if the singleton
is unset, it is constructed and assigned (lines 78-79) and the new worker
thread immediately attempts the driver start (line 22, outcome
`driverStart`); the open-browser operation (outcome `openOutcome`) is then
submitted through `run` (line 91).  Returns the singleton after the call and
what the caller observes. -/
def openBrowserExecute (gw : Option ThreadStatus) (driverStart : Except String Unit)
    (openOutcome : Outcome) : Option ThreadStatus × CallResult :=
  let w := match gw with
    | none => workerThreadStart driverStart
    | some w => w
  (some w, runOnWorker w openOutcome)

/-! ### Interleaving semantics of the worker and its concurrent callers

To settle the temporal claims we model the whole `PlaywrightWorker` as a
labelled transition system.  Any number of calling contexts may `submit`
(lines 31-33: fresh private reply slot, enqueue on `task_queue`); the single
worker thread alternates `dequeue` (line 24: `task_queue.get()`) and
`complete` (lines 25-29: run the operation against the owned resource and
deposit the tagged reply); a caller whose reply slot is filled may `receive`
(lines 34-38).  Reply slots are keyed by the task id; ghost fields record
the enqueue order, the begin-execution order, and which operation each task
and caller correspond to. -/

/-- A queued task: the id names its private reply slot (`result_queue`). -/
structure PTask where
  tid : Nat
  op : Op

/-- The worker thread is either waiting on the queue or executing one task —
the loop body of `_run` holds at most one task at a time. -/
inductive Phase where
  | idle
  | executing (t : PTask)

/-- Whether the worker is currently executing a task. -/
def busy : Phase → Bool
  | Phase.idle => false
  | Phase.executing _ => true

/-- Global state: the mailbox (`task_queue`), the worker phase, the owned
resource state, every task's reply slot, and ghost bookkeeping (which task a
caller awaits, which operation a task id carries, what each caller received,
and the enqueue/begin orders). -/
structure Sys where
  mailbox : List PTask
  phase : Phase
  resource : Nat
  replies : Nat → Option Outcome
  nextTid : Nat
  waitOf : Nat → Option Nat
  opOf : Nat → Option Op
  received : Nat → Option Outcome
  enqueuedOrder : List Nat
  begunOrder : List Nat

/-- The initial state: empty queue, worker idle (entered right after the
driver start, line 22-23), no caller waiting. -/
def initSys (r0 : Nat) : Sys where
  mailbox := []
  phase := Phase.idle
  resource := r0
  replies := fun _ => none
  nextTid := 0
  waitOf := fun _ => none
  opOf := fun _ => none
  received := fun _ => none
  enqueuedOrder := []
  begunOrder := []

/-- Transition labels: caller `c` submits an operation, the worker dequeues
the next task, the worker completes the current task, caller `c` reads its
reply. -/
inductive Lab where
  | submit (c : Nat) (op : Op)
  | dequeue
  | complete
  | receive (c : Nat)

/-- One transition; `none` when the label is not enabled.  `submit` is always
enabled for a caller with no outstanding call (run has no validation and
`task_queue` is unbounded); `dequeue` requires an idle worker and a nonempty
mailbox; `complete` requires an executing worker; `receive` requires the
caller's reply slot to be filled. -/
def step (s : Sys) : Lab → Option Sys
  | Lab.submit c op =>
    match s.waitOf c, s.received c with
    | none, none =>
      some { s with
        mailbox := s.mailbox ++ [⟨s.nextTid, op⟩]
        nextTid := s.nextTid + 1
        waitOf := Function.update s.waitOf c (some s.nextTid)
        opOf := Function.update s.opOf s.nextTid (some op)
        enqueuedOrder := s.enqueuedOrder ++ [s.nextTid] }
    | _, _ => none
  | Lab.dequeue =>
    match s.phase, s.mailbox with
    | Phase.idle, t :: rest =>
      some { s with
        mailbox := rest
        phase := Phase.executing t
        begunOrder := s.begunOrder ++ [t.tid] }
    | _, _ => none
  | Lab.complete =>
    match s.phase with
    | Phase.executing t =>
      some { s with
        phase := Phase.idle
        resource := (t.op s.resource).2
        replies := Function.update s.replies t.tid (some (t.op s.resource).1) }
    | Phase.idle => none
  | Lab.receive c =>
    match s.waitOf c, s.received c with
    | some tid, none =>
      match s.replies tid with
      | some r => some { s with received := Function.update s.received c (some r) }
      | none => none
    | _, _ => none

/-- Run a schedule of labels; `none` if any label was not enabled. -/
def runSys : Sys → List Lab → Option Sys
  | s, [] => some s
  | s, l :: rest =>
    match step s l with
    | some s' => runSys s' rest
    | none => none

/-- Scan a schedule checking that the worker's execution intervals
(`dequeue` … `complete`) never overlap: a second `dequeue` must not occur
while an interval is open, and every `complete` closes an open interval.
The boolean argument is whether an interval is currently open. -/
def execScan : Bool → List Lab → Bool
  | _, [] => true
  | b, Lab.dequeue :: rest => if b then false else execScan true rest
  | b, Lab.complete :: rest => if b then execScan false rest else false
  | b, Lab.submit _ _ :: rest => execScan b rest
  | b, Lab.receive _ :: rest => execScan b rest

/-- The task held by the worker in a given phase. -/
def phaseTasks : Phase → List PTask
  | Phase.idle => []
  | Phase.executing t => [t]

/-- The tasks currently owned by the system: the one being executed, if any,
followed by the mailbox. -/
def allTasks (s : Sys) : List PTask :=
  phaseTasks s.phase ++ s.mailbox

/-- Invariant tying the ghost bookkeeping to the live state: every owned task
carries the operation recorded for its id; task ids are below the fresh
counter; fresh ids have no recorded operation and no reply; every filled
reply slot holds an outcome of the operation recorded for that id; and every
received value came through the caller's own reply slot from the caller's
own operation. -/
structure SysInv (s : Sys) : Prop where
  task_op : ∀ t ∈ allTasks s, s.opOf t.tid = some t.op
  task_lt : ∀ t ∈ allTasks s, t.tid < s.nextTid
  fresh_op : ∀ tid, s.nextTid ≤ tid → s.opOf tid = none
  fresh_reply : ∀ tid, s.nextTid ≤ tid → s.replies tid = none
  reply_ok : ∀ tid r, s.replies tid = some r →
    ∃ f ρ, s.opOf tid = some f ∧ r = (f ρ).1
  recv_ok : ∀ c r, s.received c = some r →
    ∃ tid f, s.waitOf c = some tid ∧ s.opOf tid = some f ∧ ∃ ρ, r = (f ρ).1

/-- The final state of running a schedule from the initial state with
resource state `0` (defaulting to the initial state on a disabled schedule);
used to state concrete witnesses. -/
def finalState (l : List Lab) : Sys :=
  (runSys (initSys 0) l).getD (initSys 0)

/-- A concrete operation returning `1`. -/
def opOne : Op := fun r => (Except.ok 1, r)

/-- A concrete operation returning `2`. -/
def opTwo : Op := fun r => (Except.ok 2, r)

/-- A concrete schedule: callers `0` and `1` submit concurrently, then the
worker serves both tasks and each caller reads its reply. -/
def sched1 : List Lab :=
  [Lab.submit 0 opOne, Lab.submit 1 opTwo, Lab.dequeue, Lab.complete,
   Lab.receive 0, Lab.dequeue, Lab.complete, Lab.receive 1]

/-! ### Resource touches of `PlaywrightClickElement.execute` (lines 182-231)

The component resolves its locator input before submitting the click to the
worker.  When the locator input is a (truthy) string, line 193 runs
`locator_obj = page_obj.locator(formatted_selector)` directly in the
caller's context — a use of the page handle outside the worker loop.  The
click itself (`click_action`, lines 204-228) runs inside the worker via
`global_worker.run` (line 230).  We record every method call on the owned
page/locator handles together with the context it runs in. -/

/-- The execution context a resource access runs in. -/
inductive Ctx where
  | caller
  | worker
deriving DecidableEq

/-- A method call on the owned page/locator handles. -/
inductive Touch where
  | pageLocator
  | mouseClick
  | mouseDblclick
  | locatorClick
  | locatorDblclick
deriving DecidableEq

/-- The component's `locator` input: absent (`None`), a selector string, or a
locator object from `PlaywrightIdentifyElement`. -/
inductive LocInput where
  | noneLoc
  | strLoc (s : String)
  | objLoc (id : Nat)

/-- The resolved `locator_obj` after lines 186-196: absent, the falsy empty
string (a `""` input skips the string branch and is kept as-is), a locator
built from the page, or the raw locator object. -/
inductive LocObj where
  | absent
  | emptyStr
  | fromSelector (s : String)
  | rawObj (id : Nat)

/-- Python truthiness of `locator_obj` as tested at lines 205 and 212. -/
def locObjTruthy : LocObj → Bool
  | LocObj.absent => false
  | LocObj.emptyStr => false
  | LocObj.fromSelector _ => true
  | LocObj.rawObj _ => true

/-- Line 184: `page_obj = self.page.value if ... is not None else
ctx.get("page")`. -/
def resolvePage (pageIn ctxPage : Option Nat) : Option Nat :=
  if pageIn.isSome then pageIn else ctxPage

/-- Lines 186-196: resolve `locator_obj`, recording the caller-context
`page_obj.locator(...)` call of the string branch (line 193); on a `None`
page that line raises `AttributeError`.  (The `.format(**ctx)` call is
modelled as succeeding; its failure path raises before any resource
access.) -/
def resolveLocator (page_obj : Option Nat) :
    LocInput → Except String (List (Ctx × Touch) × LocObj)
  | LocInput.strLoc s =>
    if s = "" then Except.ok ([], LocObj.emptyStr)
    else
      match page_obj with
      | none => Except.error "AttributeError: NoneType has no attribute locator"
      | some _ => Except.ok ([(Ctx.caller, Touch.pageLocator)], LocObj.fromSelector s)
  | LocInput.noneLoc => Except.ok ([], LocObj.absent)
  | LocInput.objLoc i => Except.ok ([], LocObj.rawObj i)

/-- Lines 204-228: the `click_action` closure, which runs inside the worker
loop.  `posV` is the truthiness of `position_value` (a nonempty dict);
`dblV` is the resolved `double_click` flag.  The position argument of the
locator clicks does not change which handle is touched, so the two locator
branches collapse to one touch each. -/
def clickAction (locator_obj : LocObj) (dblV posV : Bool) :
    Except String (List (Ctx × Touch))  :=
  if posV && !locObjTruthy locator_obj then
    Except.ok [(Ctx.worker, if dblV then Touch.mouseDblclick else Touch.mouseClick)]
  else if locObjTruthy locator_obj then
    Except.ok [(Ctx.worker, if dblV then Touch.locatorDblclick else Touch.locatorClick)]
  else
    Except.error "You must provide either a locator or a valid position dictionary."

/-- `PlaywrightClickElement.execute` (lines 182-231): resolve the page and
locator (caller context), check the page (line 201), then run
`click_action` through the worker (line 230).  Returns the recorded
resource touches, in order, or the raised error. -/
def clickElementExecute (pageIn ctxPage : Option Nat) (rawLoc : LocInput)
    (dbl pos : Option Bool) : Except String (List (Ctx × Touch)) :=
  match resolveLocator (resolvePage pageIn ctxPage) rawLoc with
  | Except.error e => Except.error e
  | Except.ok (callerTouches, locator_obj) =>
    match resolvePage pageIn ctxPage with
    | none => Except.error "Missing Playwright page instance."
    | some _ =>
      (clickAction locator_obj (dbl.getD false) (pos.getD false)).map
        (fun workerTouches => callerTouches ++ workerTouches)

/-- Whether an execute run touched the owned resource from the caller's
context. -/
def hasCallerTouch : Except String (List (Ctx × Touch)) → Bool
  | Except.ok tr => tr.any fun ev => decide (ev.1 = Ctx.caller)
  | Except.error _ => false

/-- Whether the locator input is a truthy (nonempty) string, i.e. takes the
string branch at line 188. -/
def isNonemptyStr : LocInput → Bool
  | LocInput.strLoc s => !(s = "")
  | LocInput.noneLoc => false
  | LocInput.objLoc _ => false

/-! ### Which components touch the process-wide worker (claim C10)

Each component's `execute` body either contains the lazy construction
(`PlaywrightOpenBrowser`, lines 78-79), or reaches a `global_worker.run(...)`
call — which, before `PlaywrightOpenBrowser` has ever run, dereferences
`None` and raises `AttributeError` — or never references `global_worker` at
all (`PlaywrightWaitForTime`, lines 727-733, and the pure JSON/HTTP
components). -/

/-- The components defined in the source file. -/
inductive Comp where
  | openBrowser
  | identifyElement
  | clickElement
  | fillInput
  | pressKey
  | hoverElement
  | checkElement
  | selectOptions
  | uploadFiles
  | focusElement
  | scrolling
  | dragAndDrop
  | takeScreenshot
  | waitForElement
  | closeBrowser
  | waitForTime
  | navigateToURL
  | extractComponentInfo
  | captureEndpoint
  | dynamicElementHandle
  | extractCategoryData
  | githubReadmeFetcher
  | readmeGeneratorFromCategory
  | extractCategoryInfo
  | extractComponentDetails
  | extractCategoryDetails
  | extractComponentPaths
deriving DecidableEq

/-- Whether the component's `execute` body contains a `global_worker.run`
call (read off the source: lines 91, 155, 230, 275, 315, 346, 390, 434, 468,
499, 566, 600, 645, 681, 712, 765, 780, 850, 895/899, 1106). -/
def usesWorker : Comp → Bool
  | Comp.waitForTime => false
  | Comp.extractCategoryData => false
  | Comp.githubReadmeFetcher => false
  | Comp.readmeGeneratorFromCategory => false
  | Comp.extractComponentDetails => false
  | Comp.extractCategoryDetails => false
  | Comp.extractComponentPaths => false
  | _ => true

/-- How a component's `execute` interacts with the unset singleton. -/
inductive WorkerAccess where
  | constructs
  | derefNone
  | noAccess
deriving DecidableEq

/-- What each component's `execute` does to `global_worker` when it is still
`None`: only `PlaywrightOpenBrowser` has the `if global_worker is None`
construction (lines 78-79); the other worker-using components reach their
`global_worker.run(...)` call on `None` and raise `AttributeError`; the
remaining components never reference `global_worker`. -/
def workerAccessBeforeOpen : Comp → WorkerAccess
  | Comp.openBrowser => WorkerAccess.constructs
  | Comp.waitForTime => WorkerAccess.noAccess
  | Comp.extractCategoryData => WorkerAccess.noAccess
  | Comp.githubReadmeFetcher => WorkerAccess.noAccess
  | Comp.readmeGeneratorFromCategory => WorkerAccess.noAccess
  | Comp.extractComponentDetails => WorkerAccess.noAccess
  | Comp.extractCategoryDetails => WorkerAccess.noAccess
  | Comp.extractComponentPaths => WorkerAccess.noAccess
  | _ => WorkerAccess.derefNone

end ReadmeAgent

namespace ReadmeAgent

/-! ## Theorems for the functional core -/

/-- Claim C3: result fidelity of `PlaywrightWorker.run`.  For every operation,
if the operation returns value `V` then `run` returns exactly `V` to the
caller, and if it raises failure `F` then `run` re-raises exactly `F` — the
same object, neither swallowed nor transformed. -/
theorem run_result_fidelity (f : Op) (res : Nat) :
    runOutcome (some f) res =
      match (f res).1 with
      | Except.ok v => RunOutcome.returns (Sum.inl v)
      | Except.error e => RunOutcome.raises (Sum.inr e) := by
  cases h : (f res).1 <;>
    simp [runOutcome, callFunc, depositReply, readReply, h]

/-- The worker loop produces exactly one reply per task. -/
theorem workerLoop_length (res : Nat) (fs : List PyFunc) :
    (workerLoop res fs).1.length = fs.length := by
  induction fs generalizing res with
  | nil => rfl
  | cons f rest ih => simp [workerLoop, ih]

/-- Claim C4: a failure raised by an operation inside the worker loop is
caught locally and deposited into that task's reply tagged as a failure
(`(False, e)`), and the loop continues: the replies for the remaining tasks
are exactly what the loop produces on them, so a failing operation never
terminates the loop and never prevents a later operation from executing and
returning its result. -/
theorem loop_survives_failure (res : Nat) (f : PyFunc) (rest : List PyFunc)
    (e : String) (hf : (callFunc f res).1 = Except.error e) :
    (workerLoop res (f :: rest)).1 =
      (false, Sum.inr e) :: (workerLoop (callFunc f res).2 rest).1 ∧
    (workerLoop res (f :: rest)).1.length = rest.length + 1 := by
  constructor
  · simp [workerLoop, hf, depositReply]
  · simp [workerLoop_length]

/-- A concrete operation that raises `"boom"` without touching the resource. -/
def failBoom : PyFunc := some (fun r => (Except.error "boom", r))

/-- A concrete operation that returns `7`. -/
def ret7 : PyFunc := some (fun r => (Except.ok 7, r))

/-- Witness for C4 at the spec's own scenario: a failing operation followed
by `() -> 7`; the failure is tagged and the next task still runs. -/
theorem loop_survives_failure_witness :
    (workerLoop 0 [failBoom, ret7]).1 =
      (false, Sum.inr "boom") :: (workerLoop 0 [ret7]).1 ∧
    (workerLoop 0 [failBoom, ret7]).1.length = 1 + 1 :=
  loop_survives_failure 0 failBoom [ret7] "boom" rfl

/-- Counterexample to claim C8: `run` called with a `None` operation does not
fail before enqueueing — the task with the `None` function does enter the
queue (lines 32-33 have no validation), the worker loop does process it
(the invocation's `TypeError` is caught at lines 28-29), and the caller gets
that `TypeError` re-raised only afterwards. -/
theorem submit_validation_counterexample :
    runSubmit [] none = [none] ∧
    (workerLoop 0 [none]).1 = [(false, Sum.inr typeErrorNone)] ∧
    runOutcome none 0 = RunOutcome.raises (Sum.inr typeErrorNone) := by
  exact ⟨rfl, rfl, rfl⟩

/-- Claim C8 as amended: `run` performs no submission-time validation.  Every
submission — valid or not — enqueues exactly one task carrying the given
function; the worker loop then processes that task like any other, and for a
`None` operation the loop's invocation raises `TypeError`, which is caught in
the loop and re-raised in the caller's context. -/
theorem run_no_submission_validation (q : List PyFunc) (f : PyFunc) (res : Nat) :
    runSubmit q f = q ++ [f] ∧
    (workerLoop res [f]).1 = [depositReply (callFunc f res).1] ∧
    runOutcome none res = RunOutcome.raises (Sum.inr typeErrorNone) := by
  refine ⟨rfl, ?_, rfl⟩
  simp [workerLoop]

/-! ## Theorems for the singleton lifecycle -/

/-- Counterexample to claim C5: singleton creation is not race-safe.  With
two contexts interleaving the unsynchronized `is None` check (line 78) and
the construct-and-assign (line 79) as `check 0, check 1, assign 0, assign 1`,
both contexts observe `None` and both construct, so `PlaywrightWorker()` runs
twice — not exactly once. -/
theorem singleton_race_counterexample :
    (runInit [InitStep.check 0, InitStep.check 1,
              InitStep.assign 0, InitStep.assign 1]).constructed = 2 := by
  decide

/-- Once the singleton is set and no context is committed to constructing,
further serialized calls change nothing. -/
theorem runInit_stable (w n : Nat) (cs : List Nat) :
    (serialSched cs).foldl initStep
        { globalWorker := some w, constructed := n, sawNone := [] } =
      { globalWorker := some w, constructed := n, sawNone := [] } := by
  induction cs with
  | nil => rfl
  | cons c rest ih => simpa [serialSched, initStep] using ih

/-- Claim C5 as amended: creation is lazy and idempotent when first-time
initializations do not interleave.  For any nonempty sequence of contexts
whose check/assign pairs run serialized, exactly one `PlaywrightWorker` is
constructed — by the first context — and every later context reuses it; only
under an interleaved (concurrent) race can more than one be constructed. -/
theorem singleton_serialized (c0 : Nat) (rest : List Nat) :
    (runInit (serialSched (c0 :: rest))).constructed = 1 ∧
    (runInit (serialSched (c0 :: rest))).globalWorker = some c0 := by
  have h : runInit (serialSched (c0 :: rest)) =
      { globalWorker := some c0, constructed := 1, sawNone := [] } := by
    simp [runInit, serialSched, initStep, runInit_stable c0 1 rest]
  rw [h]
  exact ⟨rfl, rfl⟩

/-- Counterexample to claim C7: when the driver start (line 22) fails during
first-time initialization, the failure does not propagate to the caller —
the worker thread dies before serving the loop and the caller blocks forever
in `result_queue.get()` — and the process-wide singleton does not remain
unset: `global_worker` was already assigned at line 79. -/
theorem init_failure_counterexample :
    (openBrowserExecute none (Except.error "driver start failed")
        (Except.ok 0)).1 = some ThreadStatus.dead ∧
    (openBrowserExecute none (Except.error "driver start failed")
        (Except.ok 0)).2 = CallResult.blockedForever := by
  exact ⟨rfl, rfl⟩

/-- Claim C7 as amended: if constructing the owned resource fails during
first-time initialization, the singleton is nevertheless set (it is assigned
before the worker thread attempts the driver start), the failure never
reaches the caller — the caller blocks forever awaiting its reply — and a
later call finds the singleton set, does not retry construction, and blocks
likewise even if the driver would now start. -/
theorem init_failure_no_retry (e : String) (d2 : Except String Unit)
    (op1 op2 : Outcome) :
    openBrowserExecute none (Except.error e) op1 =
      (some ThreadStatus.dead, CallResult.blockedForever) ∧
    openBrowserExecute (some ThreadStatus.dead) d2 op2 =
      (some ThreadStatus.dead, CallResult.blockedForever) := by
  exact ⟨rfl, rfl⟩

/-! ## Theorems for the interleaving semantics -/

/-- A `submit` step does not change the worker's phase. -/
theorem step_submit_phase {s s' : Sys} {c : Nat} {op : Op}
    (h : step s (Lab.submit c op) = some s') : s'.phase = s.phase := by
  simp only [step] at h
  cases hw : s.waitOf c <;> rw [hw] at h <;>
    cases hr : s.received c <;> rw [hr] at h <;> simp at h
  subst h
  rfl

/-- A `receive` step does not change the worker's phase. -/
theorem step_receive_phase {s s' : Sys} {c : Nat}
    (h : step s (Lab.receive c) = some s') : s'.phase = s.phase := by
  simp only [step] at h
  cases hw : s.waitOf c <;> rw [hw] at h <;>
    cases hr : s.received c <;> rw [hr] at h <;> simp at h
  case some.none tid =>
    cases hq : s.replies tid <;> rw [hq] at h <;> simp at h
    subst h
    rfl

/-- A `dequeue` step is enabled only on an idle worker and makes it busy. -/
theorem step_dequeue_busy {s s' : Sys}
    (h : step s Lab.dequeue = some s') :
    busy s.phase = false ∧ busy s'.phase = true := by
  simp only [step] at h
  cases hp : s.phase <;> rw [hp] at h <;>
    cases hm : s.mailbox <;> rw [hm] at h <;> simp at h
  subst h
  exact ⟨rfl, rfl⟩

/-- A `complete` step is enabled only on a busy worker and makes it idle. -/
theorem step_complete_busy {s s' : Sys}
    (h : step s Lab.complete = some s') :
    busy s.phase = true ∧ busy s'.phase = false := by
  simp only [step] at h
  cases hp : s.phase <;> rw [hp] at h <;> simp at h
  subst h
  exact ⟨rfl, rfl⟩

/-- In every executable schedule, the `dequeue`/`complete` events strictly
alternate relative to the worker's phase at the start. -/
theorem execScan_runSys : ∀ (l : List Lab) (s s' : Sys),
    runSys s l = some s' → execScan (busy s.phase) l = true := by
  intro l
  induction l with
  | nil => intro s _ _; rfl
  | cons a rest ih =>
    intro s s' h
    simp only [runSys] at h
    cases hs : step s a with
    | none => rw [hs] at h; simp at h
    | some s1 =>
      rw [hs] at h
      cases a with
      | submit c op =>
        have hp : s1.phase = s.phase := step_submit_phase hs
        simpa [execScan, ← hp] using ih s1 s' h
      | receive c =>
        have hp : s1.phase = s.phase := step_receive_phase hs
        simpa [execScan, ← hp] using ih s1 s' h
      | dequeue =>
        obtain ⟨h0, h1⟩ := step_dequeue_busy hs
        have h2 := ih s1 s' h
        rw [h1] at h2
        simp [execScan, h0, h2]
      | complete =>
        obtain ⟨h0, h1⟩ := step_complete_busy hs
        have h2 := ih s1 s' h
        rw [h1] at h2
        simp [execScan, h0, h2]

/-- Claim C1: serialization.  In every executable schedule of concurrently
submitted operations, the worker's execution intervals (from `task_queue.get`
to the reply deposit) never overlap: the interval scan succeeds, i.e. no
operation begins executing while another is still executing, so at most one
submitted operation is ever in the executing state. -/
theorem worker_serialization (r0 : Nat) (l : List Lab) (s : Sys)
    (h : runSys (initSys r0) l = some s) : execScan false l = true := by
  have h1 := execScan_runSys l (initSys r0) s h
  simpa [initSys, busy] using h1

/-- Witness for C1: the two-caller schedule `sched1` executes and its
execution intervals do not overlap. -/
theorem worker_serialization_witness : execScan false sched1 = true :=
  worker_serialization 0 sched1 (finalState sched1) rfl

/-- One step preserves the FIFO bookkeeping equation: the enqueue order is
the begin-execution order followed by the tasks still in the mailbox. -/
theorem fifo_step {s s' : Sys} {a : Lab} (h : step s a = some s')
    (hi : s.enqueuedOrder = s.begunOrder ++ s.mailbox.map PTask.tid) :
    s'.enqueuedOrder = s'.begunOrder ++ s'.mailbox.map PTask.tid := by
  cases a with
  | submit c op =>
    simp only [step] at h
    cases hw : s.waitOf c <;> rw [hw] at h <;>
      cases hr : s.received c <;> rw [hr] at h <;> simp at h
    subst h
    simp [hi]
  | dequeue =>
    simp only [step] at h
    cases hp : s.phase <;> rw [hp] at h <;>
      cases hm : s.mailbox <;> rw [hm] at h <;> simp at h
    subst h
    rw [hm] at hi
    simp [hi]
  | complete =>
    simp only [step] at h
    cases hp : s.phase <;> rw [hp] at h <;> simp at h
    subst h
    exact hi
  | receive c =>
    simp only [step] at h
    cases hw : s.waitOf c <;> rw [hw] at h <;>
      cases hr : s.received c <;> rw [hr] at h <;> simp at h
    case some.none tid =>
      cases hq : s.replies tid <;> rw [hq] at h <;> simp at h
      subst h
      exact hi

/-- The FIFO equation holds along every executable schedule. -/
theorem fifo_runSys : ∀ (l : List Lab) (s s' : Sys), runSys s l = some s' →
    s.enqueuedOrder = s.begunOrder ++ s.mailbox.map PTask.tid →
    s'.enqueuedOrder = s'.begunOrder ++ s'.mailbox.map PTask.tid := by
  intro l
  induction l with
  | nil =>
    intro s s' h hi
    simp only [runSys] at h
    simp at h
    subst h
    exact hi
  | cons a rest ih =>
    intro s s' h hi
    simp only [runSys] at h
    cases hs : step s a with
    | none => rw [hs] at h; simp at h
    | some s1 =>
      rw [hs] at h
      exact ih s1 s' h (fifo_step hs hi)

/-- Claim C2: the mailbox is FIFO.  After any executable schedule, the
sequence of enqueued task ids equals the sequence of ids whose execution has
begun followed by the ids still pending in the mailbox, in order: the worker
begins tasks in exactly their enqueue order, the next dequeue always takes
the earliest not-yet-dequeued task, and no task is reordered or dropped. -/
theorem mailbox_fifo (r0 : Nat) (l : List Lab) (s : Sys)
    (h : runSys (initSys r0) l = some s) :
    s.enqueuedOrder = s.begunOrder ++ s.mailbox.map PTask.tid :=
  fifo_runSys l (initSys r0) s h (by simp [initSys])

/-- Witness for C2 on the concrete schedule `sched1`. -/
theorem mailbox_fifo_witness :
    (finalState sched1).enqueuedOrder =
      (finalState sched1).begunOrder ++
        (finalState sched1).mailbox.map PTask.tid :=
  mailbox_fifo 0 sched1 (finalState sched1) rfl

/-- An id with a recorded operation is below the fresh counter. -/
theorem opOf_lt_of_some {s : Sys} (hi : SysInv s) {tid : Nat} {f : Op}
    (h : s.opOf tid = some f) : tid < s.nextTid := by
  by_contra hn
  push_neg at hn
  rw [hi.fresh_op tid hn] at h
  exact Option.noConfusion h

/-- The invariant is preserved by every enabled step. -/
theorem inv_step {s s' : Sys} {a : Lab} (h : step s a = some s')
    (hi : SysInv s) : SysInv s' := by
  cases a with
  | submit c op =>
    simp only [step] at h
    cases hw : s.waitOf c <;> rw [hw] at h <;>
      cases hr : s.received c <;> rw [hr] at h <;> simp at h
    subst h
    refine ⟨?_, ?_, ?_, ?_, ?_, ?_⟩
    · intro t ht
      simp only [allTasks, List.mem_append, List.mem_singleton] at ht
      dsimp only
      rcases ht with h1 | h2 | h3
      · have hmem : t ∈ allTasks s := by
          simp [allTasks, List.mem_append, h1]
        rw [Function.update_noteq (Nat.ne_of_lt (hi.task_lt t hmem))]
        exact hi.task_op t hmem
      · have hmem : t ∈ allTasks s := by
          simp [allTasks, List.mem_append, h2]
        rw [Function.update_noteq (Nat.ne_of_lt (hi.task_lt t hmem))]
        exact hi.task_op t hmem
      · subst h3
        rw [Function.update_same]
    · intro t ht
      simp only [allTasks, List.mem_append, List.mem_singleton] at ht
      dsimp only
      rcases ht with h1 | h2 | h3
      · exact Nat.lt_succ_of_lt (hi.task_lt t (by simp [allTasks, h1]))
      · exact Nat.lt_succ_of_lt (hi.task_lt t (by simp [allTasks, h2]))
      · subst h3
        exact Nat.lt_succ_self _
    · intro tid htid
      dsimp only at htid ⊢
      rw [Function.update_noteq (by omega)]
      exact hi.fresh_op tid (by omega)
    · intro tid htid
      dsimp only at htid ⊢
      exact hi.fresh_reply tid (by omega)
    · intro tid r hrep
      dsimp only at hrep ⊢
      obtain ⟨f, ρ, hf, hval⟩ := hi.reply_ok tid r hrep
      refine ⟨f, ρ, ?_, hval⟩
      rw [Function.update_noteq (Nat.ne_of_lt (opOf_lt_of_some hi hf))]
      exact hf
    · intro c' r hc'
      dsimp only at hc' ⊢
      obtain ⟨tid, f, hwj, hf, ρ, hval⟩ := hi.recv_ok c' r hc'
      have hcc : c' ≠ c := by
        intro he
        rw [he, hr] at hc'
        exact Option.noConfusion hc'
      refine ⟨tid, f, ?_, ?_, ρ, hval⟩
      · rw [Function.update_noteq hcc]
        exact hwj
      · rw [Function.update_noteq (Nat.ne_of_lt (opOf_lt_of_some hi hf))]
        exact hf
  | dequeue =>
    simp only [step] at h
    cases hp : s.phase <;> rw [hp] at h <;>
      cases hm : s.mailbox <;> rw [hm] at h <;> simp at h
    subst h
    rename_i t rest
    have hall : ∀ u : PTask,
        (u = t ∨ u ∈ rest) → u ∈ allTasks s := by
      intro u hu
      simp [allTasks, phaseTasks, hp, hm]
      exact hu
    refine ⟨?_, ?_, hi.fresh_op, hi.fresh_reply, hi.reply_ok, hi.recv_ok⟩
    · intro u hu
      simp only [allTasks, phaseTasks, List.mem_append, List.mem_singleton] at hu
      exact hi.task_op u (hall u hu)
    · intro u hu
      simp only [allTasks, phaseTasks, List.mem_append, List.mem_singleton] at hu
      exact hi.task_lt u (hall u hu)
  | complete =>
    simp only [step] at h
    cases hp : s.phase <;> rw [hp] at h <;> simp at h
    subst h
    rename_i t
    have htmem : t ∈ allTasks s := by
      simp [allTasks, phaseTasks, hp]
    have hall : ∀ u : PTask, u ∈ s.mailbox → u ∈ allTasks s := by
      intro u hu
      simp [allTasks, phaseTasks, hp, hu]
    refine ⟨?_, ?_, hi.fresh_op, ?_, ?_, hi.recv_ok⟩
    · intro u hu
      simp only [allTasks, phaseTasks, List.nil_append] at hu
      exact hi.task_op u (hall u hu)
    · intro u hu
      simp only [allTasks, phaseTasks, List.nil_append] at hu
      exact hi.task_lt u (hall u hu)
    · intro tid htid
      dsimp only at htid ⊢
      have hne : tid ≠ t.tid := by
        have := hi.task_lt t htmem
        omega
      rw [Function.update_noteq hne]
      exact hi.fresh_reply tid htid
    · intro tid r hrep
      dsimp only at hrep ⊢
      rcases eq_or_ne tid t.tid with rfl | hne
      · rw [Function.update_same] at hrep
        refine ⟨t.op, s.resource, hi.task_op t htmem, ?_⟩
        exact (Option.some.inj hrep).symm
      · rw [Function.update_noteq hne] at hrep
        exact hi.reply_ok tid r hrep
  | receive c =>
    simp only [step] at h
    cases hw : s.waitOf c <;> rw [hw] at h <;>
      cases hr : s.received c <;> rw [hr] at h <;> simp at h
    case some.none tid =>
      cases hq : s.replies tid <;> rw [hq] at h <;> simp at h
      subst h
      rename_i r
      refine ⟨hi.task_op, hi.task_lt, hi.fresh_op, hi.fresh_reply,
        hi.reply_ok, ?_⟩
      intro c' r' hc'
      dsimp only at hc'
      rcases eq_or_ne c' c with rfl | hne
      · rw [Function.update_same] at hc'
        obtain ⟨f, ρ, hf, hval⟩ := hi.reply_ok tid r hq
        refine ⟨tid, f, hw, hf, ρ, ?_⟩
        rw [← Option.some.inj hc']
        exact hval
      · rw [Function.update_noteq hne] at hc'
        exact hi.recv_ok c' r' hc'

/-- The invariant holds along every executable schedule. -/
theorem inv_runSys : ∀ (l : List Lab) (s s' : Sys), runSys s l = some s' →
    SysInv s → SysInv s' := by
  intro l
  induction l with
  | nil =>
    intro s s' h hi
    simp only [runSys] at h
    simp at h
    subst h
    exact hi
  | cons a rest ih =>
    intro s s' h hi
    simp only [runSys] at h
    cases hs : step s a with
    | none => rw [hs] at h; simp at h
    | some s1 =>
      rw [hs] at h
      exact ih s1 s' h (inv_step hs hi)

/-- The initial state satisfies the invariant. -/
theorem initSys_inv (r0 : Nat) : SysInv (initSys r0) := by
  refine ⟨?_, ?_, ?_, ?_, ?_, ?_⟩ <;>
    intros <;> simp_all [initSys, allTasks, phaseTasks]

/-- Claim C9: reply-slot isolation.  In every executable schedule, whatever
a caller receives from its `run` call came through the reply slot of the
task that caller itself submitted, and is an outcome of that caller's own
operation (evaluated at some resource state) — never another caller's
result. -/
theorem reply_slot_isolation (r0 : Nat) (l : List Lab) (s : Sys)
    (h : runSys (initSys r0) l = some s) (c : Nat) (r : Outcome)
    (hr : s.received c = some r) :
    ∃ tid f, s.waitOf c = some tid ∧ s.opOf tid = some f ∧
      ∃ ρ, r = (f ρ).1 :=
  (inv_runSys l (initSys r0) s h (initSys_inv r0)).recv_ok c r hr

/-- Witness for C9: in `sched1`, caller `0` (who submitted the operation
returning `1`) receives exactly `Except.ok 1` — its own task's outcome. -/
theorem reply_slot_isolation_witness :
    ∃ tid f, (finalState sched1).waitOf 0 = some tid ∧
      (finalState sched1).opOf tid = some f ∧
      ∃ ρ, Except.ok 1 = (f ρ).1 :=
  reply_slot_isolation 0 sched1 (finalState sched1) rfl 0 (Except.ok 1) rfl

/-! ## Theorems for resource confinement (claim C6) -/

/-- Every resource touch made by the `click_action` closure runs in the
worker context. -/
theorem clickAction_worker_only (lo : LocObj) (d p : Bool) :
    hasCallerTouch (clickAction lo d p) = false := by
  unfold clickAction
  split
  · cases d <;> rfl
  · split
    · cases d <;> rfl
    · rfl

/-- Prepending a caller-touch-free prefix to the `click_action` touches
keeps the run caller-touch-free. -/
theorem hasCallerTouch_map_action (ct : List (Ctx × Touch)) (lo : LocObj)
    (d p : Bool) (hct : ct.any (fun ev => decide (ev.1 = Ctx.caller)) = false) :
    hasCallerTouch ((clickAction lo d p).map fun wt => ct ++ wt) = false := by
  cases hca : clickAction lo d p with
  | error e => simp [hasCallerTouch, Except.map]
  | ok wt =>
    have hw := clickAction_worker_only lo d p
    rw [hca] at hw
    simp only [hasCallerTouch] at hw
    simp [hasCallerTouch, Except.map, List.any_append, hct, hw]

/-- Counterexample to claim C6: with a page instance and the selector string
`"#btn"` as locator input, `PlaywrightClickElement.execute` touches the page
handle (`page_obj.locator`, line 193) from the caller's context, before the
worker-side click — so code running in a caller's context does touch the
owned resource directly. -/
theorem resource_confinement_counterexample :
    hasCallerTouch
      (clickElementExecute (some 1) none (LocInput.strLoc "#btn") none none)
        = true ∧
    clickElementExecute (some 1) none (LocInput.strLoc "#btn") none none =
      Except.ok [(Ctx.caller, Touch.pageLocator),
                 (Ctx.worker, Touch.locatorClick)] := by
  exact ⟨rfl, rfl⟩

/-- Claim C6 as amended: operations submitted through `run` touch the
resource only inside the worker loop, and `PlaywrightClickElement.execute`
keeps all its resource touches in the worker context whenever its locator
input is not a nonempty selector string; only the string-locator path
violates confinement by calling `page.locator` in the caller's context. -/
theorem click_confinement_amended (pageIn ctxPage : Option Nat)
    (rawLoc : LocInput) (dbl pos : Option Bool)
    (h : isNonemptyStr rawLoc = false) :
    hasCallerTouch (clickElementExecute pageIn ctxPage rawLoc dbl pos)
      = false := by
  have hl : ∃ lo, resolveLocator (resolvePage pageIn ctxPage) rawLoc =
      Except.ok ([], lo) := by
    cases rawLoc with
    | strLoc s =>
      have hs : s = "" := by simpa [isNonemptyStr] using h
      exact ⟨LocObj.emptyStr, by simp [resolveLocator, hs]⟩
    | noneLoc => exact ⟨LocObj.absent, rfl⟩
    | objLoc i => exact ⟨LocObj.rawObj i, rfl⟩
  obtain ⟨lo, hlo⟩ := hl
  unfold clickElementExecute
  rw [hlo]
  dsimp only
  cases hpg : resolvePage pageIn ctxPage with
  | none => rfl
  | some p2 => exact hasCallerTouch_map_action [] lo _ _ rfl

/-- Witness for the amended C6 at a locator-object input: no caller-context
resource touch occurs. -/
theorem click_confinement_witness :
    isNonemptyStr (LocInput.objLoc 5) = false ∧
    hasCallerTouch
      (clickElementExecute (some 1) none (LocInput.objLoc 5) none none)
        = false :=
  ⟨rfl, click_confinement_amended (some 1) none (LocInput.objLoc 5) none none rfl⟩

/-! ## Theorems for the lazy-construction layout (claim C10) -/

/-- Counterexample to claim C10: `PlaywrightWaitForTime` is a component
other than `PlaywrightOpenBrowser` whose `execute` (lines 727-733) never
dereferences `global_worker`, so calling it before `PlaywrightOpenBrowser`
has ever run does not fail with an attribute error on `None` — refuting
"every other component's execute dereferences the module-level
global_worker". -/
theorem lazy_construction_counterexample :
    Comp.waitForTime ≠ Comp.openBrowser ∧
    workerAccessBeforeOpen Comp.waitForTime = WorkerAccess.noAccess ∧
    workerAccessBeforeOpen Comp.waitForTime ≠ WorkerAccess.derefNone := by
  refine ⟨by decide, rfl, by decide⟩

/-- Claim C10 as amended: only `PlaywrightOpenBrowser` performs the lazy
construction of the process-wide worker; a component dereferences the unset
`global_worker` — failing with `AttributeError` on `None` instead of
constructing the worker — exactly when its execute submits work to the
worker and it is not `PlaywrightOpenBrowser`; the remaining components never
reference `global_worker` at all. -/
theorem only_openBrowser_constructs (k : Comp) :
    (workerAccessBeforeOpen k = WorkerAccess.constructs ↔
      k = Comp.openBrowser) ∧
    (workerAccessBeforeOpen k = WorkerAccess.derefNone ↔
      usesWorker k = true ∧ k ≠ Comp.openBrowser) := by
  cases k <;> exact ⟨by decide, by decide⟩

end ReadmeAgent
